import Mathlib

/-
Verification of the SignalHub incremental computation pipeline.

The development shallowly embeds the stage logic of the pipeline:
  * computeEMA              — supabase/functions/compute_signals/index.ts
  * trend / crossover fold  — supabase/functions/compute_ema_trend/index.ts
  * ingestion upsert path   — supabase/functions/fetch_ohlc/index.ts
  * percent-change path     — supabase/functions/populate_strategy_9_30_ema/index.ts
  * checkpoint handling     — supabase/functions/shared/processing_state.ts

Numbers are modelled as rationals; the JavaScript non-finite doubles
(Infinity / NaN), where they matter, are modelled by an explicit tagged
type.  Timestamps are modelled as naturals, ordered as the store orders
ISO timestamps.
-/

namespace SignalHub

/-- Rounding to 6 decimal places, half upward, modelling the final
statement of computeEMA, which evaluates parseFloat applied to a
toFixed rendering with 6 places. -/
def round6 (q : ℚ) : ℚ := (⌊q * 1000000 + 1/2⌋ : ℚ) / 1000000

/-- Function computeEMA from compute_signals/index.ts lines 30-38:
returns null when fewer than period closes are available; otherwise seeds
with the arithmetic mean of the first period closes, folds the remaining
closes with ema := close*alpha + ema*(1-alpha) where alpha = 2/(period+1),
and rounds the result to 6 decimal places. -/
def computeEMA (closes : List ℚ) (period : ℕ) : Option ℚ :=
  if closes.length < period then none
  else
    let alpha : ℚ := 2 / (period + 1)
    let seed : ℚ := (closes.take period).sum / period
    some (round6 ((closes.drop period).foldl (fun ema c => c * alpha + ema * (1 - alpha)) seed))

/-- The EMA value described by the words of the specification: seed with the
arithmetic mean of the first period closes, then fold each subsequent close
c as ema := c*alpha + ema*(1-alpha) with alpha = 2/(period+1), and round
the final value to 6 decimal places.  Stated apart from computeEMA so that
the refinement can be proved. -/
def emaSpecValue (closes : List ℚ) (period : ℕ) : ℚ :=
  let alpha : ℚ := 2 / (period + 1)
  let seed : ℚ := (closes.take period).sum / period
  round6 ((closes.drop period).foldl (fun ema c => c * alpha + ema * (1 - alpha)) seed)

/-- Trend and crossover direction labels used by compute_ema_trend. -/
inductive Direction where
  | Bullish : Direction
  | Bearish : Direction
deriving DecidableEq, Repr

/-- One row written to the 9_30_ema_trend table. -/
structure TrendRow where
  ema9 : ℚ
  ema30 : ℚ
  trend : Direction
  crossover : Option Direction
deriving DecidableEq, Repr

/-- One iteration of the candle loop in processStockTimeframe,
compute_ema_trend/index.ts lines 112-150.  The state is the pair
(prevEma9, prevEma30); a crossover is emitted only when both previous
values are present; the trend is Bullish when ema9 is at least ema30;
the state is then updated to the current pair. -/
def trendStep (state : Option ℚ × Option ℚ) (e : ℚ × ℚ) :
    (Option ℚ × Option ℚ) × TrendRow :=
  let crossover : Option Direction :=
    match state with
    | (some prevEma9, some prevEma30) =>
      if prevEma9 < prevEma30 ∧ e.1 ≥ e.2 then some Direction.Bullish
      else if prevEma9 > prevEma30 ∧ e.1 ≤ e.2 then some Direction.Bearish
      else none
    | _ => none
  let trend : Direction := if e.1 ≥ e.2 then Direction.Bullish else Direction.Bearish
  ((some e.1, some e.2), ⟨e.1, e.2, trend, crossover⟩)

/-- The whole candle loop of processStockTimeframe in
compute_ema_trend/index.ts: fold trendStep over the ascending
(ema9, ema30) pairs, starting from the carry-in state loaded from the
store, collecting the emitted trend rows in order. -/
def processTrendRun (state : Option ℚ × Option ℚ) : List (ℚ × ℚ) → List TrendRow
  | [] => []
  | e :: rest =>
    let s := trendStep state e
    s.2 :: processTrendRun s.1 rest

/-- A raw price bar as returned by the market-data provider
(utils/fetchOHLC.ts), with a unix-seconds timestamp. -/
structure Bar where
  timestamp : ℕ
  openPrice : ℚ
  high : ℚ
  low : ℚ
  close : ℚ
  volume : ℚ
deriving DecidableEq, Repr

/-- A candle row as upserted into ohlc_data (one fixed stock and
timeframe, so those key fields are left implicit). -/
structure CandleRow where
  timestamp : ℕ
  openPrice : ℚ
  high : ℚ
  low : ℚ
  close : ℚ
  volume : ℚ
deriving DecidableEq, Repr

/-- The transformedCandles map of processStock, fetch_ohlc/index.ts lines
198-207: every fetched bar is mapped field by field onto a database row.
No bar is dropped: the current ingestion stage applies no session filter. -/
def transformCandles (candles : List Bar) : List CandleRow :=
  candles.map (fun c => ⟨c.timestamp, c.openPrice, c.high, c.low, c.close, c.volume⟩)

/-- Minute of the IST day of a unix-seconds timestamp, as computed by the
session filter of the legacy ingestion variant (IST is UTC plus 5 hours
30 minutes, hence the 19800-second shift). -/
def istMinutesOfDay (t : ℕ) : ℕ := ((t + 19800) / 60) % 1440

/-- The 09:15-15:30 IST session window test from the legacy ingestion
variant (and documented in workflow.md): minute of day between 555 and
930 inclusive. -/
def inSessionWindow (t : ℕ) : Bool := 555 ≤ istMinutesOfDay t && istMinutesOfDay t ≤ 930

/-- Upsert semantics of the store on a timestamp-keyed series: rows whose
timestamp is already present are merged (left unchanged here, since only
the key matters for counting), new timestamps are appended. -/
def upsertByTimestamp (existing newRows : List ℕ) : List ℕ :=
  existing ++ newRows.filter (fun t => !(existing.contains t))

/-- The ohlc_data rows stored for one (stock, timeframe) pair after one
run of the current ingestion stage (fetch_ohlc/index.ts lines 209-231):
the fetched bars are upserted in chunks and nothing is ever deleted —
the function contains no pruning step. -/
def candlesAfterFetchRun (existing fetchedTimestamps : List ℕ) : List ℕ :=
  upsertByTimestamp existing fetchedTimestamps

/-- The 9_30_ema_trend rows stored for one pair after one run of the
current trend stage (compute_ema_trend/index.ts lines 152-179): trend
rows are upserted in chunks and nothing is ever deleted — the function
contains no pruning step. -/
def trendsAfterTrendRun (existing newTimestamps : List ℕ) : List ℕ :=
  upsertByTimestamp existing newTimestamps

/-- The signal pruning of compute_signals/index.ts lines 115-132: the
stored timestamps are read back ordered descending and every row after
the 50th is deleted, so the rows kept are the first 50 of the descending
order. -/
def signalsAfterPrune (storedDesc : List ℕ) : List ℕ :=
  storedDesc.take 50

/-- A JavaScript double restricted to what the percent-change path can
produce: either a finite (here exact rational) value, or a non-finite
value (Infinity, -Infinity or NaN). -/
inductive JsNum where
  | fin : ℚ → JsNum
  | nonfin : JsNum
deriving DecidableEq, Repr

/-- JavaScript division of a number by a finite value: dividing by zero
yields a non-finite result (Infinity, -Infinity or NaN), never an error. -/
def jsDivQ : JsNum → ℚ → JsNum
  | JsNum.nonfin, _ => JsNum.nonfin
  | JsNum.fin a, b => if b = 0 then JsNum.nonfin else JsNum.fin (a / b)

/-- Multiplication by a nonzero finite constant; non-finite values stay
non-finite. -/
def jsMulQ : JsNum → ℚ → JsNum
  | JsNum.nonfin, _ => JsNum.nonfin
  | JsNum.fin a, b => JsNum.fin (a * b)

/-- Math.round: floor of x + 1/2 on finite values, identity on
non-finite values. -/
def jsRound : JsNum → JsNum
  | JsNum.nonfin => JsNum.nonfin
  | JsNum.fin a => JsNum.fin ((⌊a + 1/2⌋ : ℚ))

/-- JSON serialization of a number field, as applied by the body builder
of the upsert call: finite numbers are kept, non-finite numbers are
serialized as null. -/
def jsonNumberField : JsNum → Option ℚ
  | JsNum.fin a => some a
  | JsNum.nonfin => none

/-- Rounding to 2 decimal places, half upward, as the specification words
the percent-change rounding. -/
def round2 (q : ℚ) : ℚ := (⌊q * 100 + 1/2⌋ : ℚ) / 100

/-- The prcnt_change published for one instrument by the aggregation
stage, populate_strategy_9_30_ema/index.ts lines 144-157 and 206-214:
null when no prior-day close was found; otherwise
Math.round(((cmp - prevClose) / prevClose) * 100 * 100) / 100,
serialized through JSON (which turns a non-finite value into null). -/
def computePrcntChange (cmp : ℚ) (prevClose : Option ℚ) : Option ℚ :=
  match prevClose with
  | none => none
  | some prev =>
    let raw := jsMulQ (jsDivQ (JsNum.fin (cmp - prev)) prev) 100
    jsonNumberField (jsDivQ (jsRound (jsMulQ raw 100)) 100)

/-- Function getNewCandlesSinceLastProcessed from
shared/processing_state.ts lines 70-98, for one pair: keep the candles
strictly newer than the per-(stage, stock, timeframe) checkpoint, and on
a large gap keep only the most recent 210 of them. -/
def selectNewCandles (cpBefore : ℕ) (allCandles : List ℕ) : List ℕ :=
  let fresh := allCandles.filter (fun t => decide (cpBefore < t))
  if 210 < fresh.length then fresh.drop (fresh.length - 210) else fresh

/-- Function getCandlesSinceTimestamp from shared/processing_state.ts
lines 165-188, as called by compute_ema_trend (and, analogously, the
delta checks of fetch_ohlc and populate_strategy_9_30_ema): keep the
candles strictly newer than the PIPELINE-level checkpoint
(stage pipeline, stock 0, timeframe global), truncated to 210. -/
def candlesSinceTimestamp (pipelineCp : ℕ) (allCandles : List ℕ) : List ℕ :=
  let fresh := allCandles.filter (fun t => decide (pipelineCp < t))
  if 210 < fresh.length then fresh.drop (fresh.length - 210) else fresh

/-- The signal timestamps a run of compute_signals writes for one
indicator (index.ts lines 80-95): indices from period-1 onward of the
new candles, skipping timestamps already stored. -/
def newSignalTimestamps (period : ℕ) (storedSignals newCandles : List ℕ) : List ℕ :=
  (newCandles.drop (period - 1)).filter (fun t => !(storedSignals.contains t))

/-- Outcome of processStockTimeframe in compute_signals/index.ts for one
pair: the checkpoint value after the run, the signal rows stored after
the run, and the number of upsert errors recorded. -/
structure SignalsPairRun where
  checkpointAfter : ℕ
  signalsAfter : List ℕ
  upsertErrors : ℕ
deriving DecidableEq, Repr

/-- Embedding of processStockTimeframe, compute_signals/index.ts lines
41-157, for one indicator, with the store upsert outcome made explicit:
on upsert failure the error is pushed onto the error list and the signal
rows are unchanged; the checkpoint update at lines 140-144 runs
unconditionally whenever any new candles were selected, setting the
checkpoint to the timestamp of the last new candle. -/
def runSignalsPair (period cpBefore : ℕ) (storedSignals newCandles : List ℕ)
    (upsertOk : Bool) : SignalsPairRun :=
  let toWrite := newSignalTimestamps period storedSignals newCandles
  { checkpointAfter := newCandles.getLastD cpBefore
    signalsAfter := if upsertOk then storedSignals ++ toWrite else storedSignals
    upsertErrors := if upsertOk then 0 else 1 }

/-- Observable states of the strategy_9_30_ema table during the rebuild
in populate_strategy_9_30_ema/index.ts lines 191-224: the initial table,
then the state right after the unconditional DELETE of every row, then
the state after each successive INSERT batch of 100 rows. -/
def snapshotRebuildStates (initialTable strategyData : List ℕ) : List (List ℕ) :=
  let batchCount := (strategyData.length + 99) / 100
  initialTable :: [] :: (List.range batchCount).map (fun i => strategyData.take ((i + 1) * 100))

/-- Helper: any member of the per-stage delta selection is strictly newer
than the checkpoint used to select it. -/
theorem mem_selectNewCandles_lt {cp t : ℕ} {allCandles : List ℕ}
    (h : t ∈ selectNewCandles cp allCandles) : cp < t := by
  simp only [selectNewCandles] at h
  split_ifs at h with hlen
  · have hf := List.mem_of_mem_drop h
    simp only [List.mem_filter, decide_eq_true_eq] at hf
    exact hf.2
  · simp only [List.mem_filter, decide_eq_true_eq] at h
    exact h.2

/-- Helper: any member of the pipeline-gated delta selection is strictly
newer than the pipeline checkpoint, and comes from the input candles. -/
theorem mem_candlesSinceTimestamp {cp t : ℕ} {allCandles : List ℕ}
    (h : t ∈ candlesSinceTimestamp cp allCandles) : cp < t ∧ t ∈ allCandles := by
  simp only [candlesSinceTimestamp] at h
  split_ifs at h with hlen
  · have hf := List.mem_of_mem_drop h
    simp only [List.mem_filter, decide_eq_true_eq] at hf
    exact ⟨hf.2, hf.1⟩
  · simp only [List.mem_filter, decide_eq_true_eq] at h
    exact ⟨h.2, h.1⟩

/-- C1: for every list of closes with length at least period (period at
least 1), computeEMA returns the value obtained by seeding with the
arithmetic mean of the first period closes, folding each subsequent
close c as ema := c*alpha + ema*(1-alpha) with alpha = 2/(period+1), and
rounding the final value to 6 decimal places; for closes [1..9] and
period 3 the alpha is 1/2, the seed is mean(1,2,3) = 2, and the stored
EMA sequence at indices 2..8 is [2, 3, 4, 5, 6, 7, 8]. -/
theorem computeEMA_matches_spec (closes : List ℚ) (period : ℕ)
    (_hp : 1 ≤ period) (hlen : period ≤ closes.length) :
    computeEMA closes period = some (emaSpecValue closes period)
  ∧ computeEMA [1, 2, 3, 4, 5, 6, 7, 8, 9] 3 = some 8
  ∧ (2 : ℚ) / (3 + 1) = 1 / 2
  ∧ (([1, 2, 3, 4, 5, 6, 7, 8, 9] : List ℚ).take 3).sum / 3 = 2
  ∧ ([2, 3, 4, 5, 6, 7, 8] : List ℕ).map
      (fun i => computeEMA (([1, 2, 3, 4, 5, 6, 7, 8, 9] : List ℚ).take (i + 1)) 3)
      = [some 2, some 3, some 4, some 5, some 6, some 7, some 8] := by
  refine ⟨?_, ?_, by norm_num, by norm_num, ?_⟩
  · simp only [computeEMA, emaSpecValue, if_neg (by omega : ¬ closes.length < period)]
  · norm_num [computeEMA, round6, Int.floor_eq_iff]
  · norm_num [computeEMA, round6, Int.floor_eq_iff]

/-- Witness for C1 at closes [1..9] and period 3. -/
theorem computeEMA_matches_spec_witness :
    1 ≤ 3 ∧ 3 ≤ ([1, 2, 3, 4, 5, 6, 7, 8, 9] : List ℚ).length
  ∧ computeEMA [1, 2, 3, 4, 5, 6, 7, 8, 9] 3
      = some (emaSpecValue [1, 2, 3, 4, 5, 6, 7, 8, 9] 3) :=
  ⟨by decide, by decide,
    (computeEMA_matches_spec [1, 2, 3, 4, 5, 6, 7, 8, 9] 3 (by decide) (by decide)).1⟩

/-- C10: computeEMA returns null exactly when the list of closes has
fewer elements than the period, and a non-null value whenever the list
has at least period elements. -/
theorem computeEMA_none_iff (closes : List ℚ) (period : ℕ) :
    (computeEMA closes period = none ↔ closes.length < period)
  ∧ ((computeEMA closes period).isSome ↔ period ≤ closes.length) := by
  unfold computeEMA
  split_ifs with h
  · simp only [Option.isSome_none, true_iff, iff_true]
    exact ⟨h, by simp; omega⟩
  · simp only [Option.isSome_some, iff_true, true_iff]
    exact ⟨by simp [h], by omega⟩

/-- C2: at each point of a trend-stage run, with carry-in state
(prevShort, prevLong), the emitted trend is Bullish when short is at
least long and Bearish otherwise; the emitted crossover is Bullish
exactly when prevShort < prevLong and short is at least long, Bearish
exactly when prevShort > prevLong and short is at most long, and null
otherwise; a point with no carry-in state gets a trend but never a
crossover; and on [(10,12), (11,11), (13,10)] with no carry-in the
trends are [Bearish, Bullish, Bullish] with a single Bullish crossover
at the second point. -/
theorem trendStep_characterization :
    (∀ ps pl s l : ℚ,
        ((trendStep (some ps, some pl) (s, l)).2.crossover = some Direction.Bullish
            ↔ ps < pl ∧ l ≤ s)
      ∧ ((trendStep (some ps, some pl) (s, l)).2.crossover = some Direction.Bearish
            ↔ pl < ps ∧ s ≤ l)
      ∧ ((trendStep (some ps, some pl) (s, l)).2.trend = Direction.Bullish ↔ l ≤ s)
      ∧ ((trendStep (some ps, some pl) (s, l)).2.trend = Direction.Bearish ↔ s < l)
      ∧ (trendStep (some ps, some pl) (s, l)).1 = (some s, some l))
  ∧ (∀ (st : Option ℚ) (e : ℚ × ℚ),
        (trendStep (none, st) e).2.crossover = none
      ∧ (trendStep (st, none) e).2.crossover = none)
  ∧ (processTrendRun (none, none) [(10, 12), (11, 11), (13, 10)]).map (fun r => r.trend)
      = [Direction.Bearish, Direction.Bullish, Direction.Bullish]
  ∧ (processTrendRun (none, none) [(10, 12), (11, 11), (13, 10)]).map (fun r => r.crossover)
      = [none, some Direction.Bullish, none] := by
  refine ⟨fun ps pl s l => ?_, fun st e => ?_, ?_, ?_⟩
  · dsimp only [trendStep]
    simp only [ge_iff_le]
    refine ⟨?_, ?_, ?_, ?_, trivial⟩
    · by_cases hc1 : ps < pl ∧ l ≤ s
      · rw [if_pos hc1]
        exact iff_of_true rfl hc1
      · rw [if_neg hc1]
        by_cases hc2 : pl < ps ∧ s ≤ l
        · rw [if_pos hc2]
          exact iff_of_false (by simp) hc1
        · rw [if_neg hc2]
          exact iff_of_false (by simp) hc1
    · by_cases hc1 : ps < pl ∧ l ≤ s
      · rw [if_pos hc1]
        exact iff_of_false (by simp) (fun hc2 => absurd hc1.1 (lt_asymm hc2.1))
      · rw [if_neg hc1]
        by_cases hc2 : pl < ps ∧ s ≤ l
        · rw [if_pos hc2]
          exact iff_of_true rfl hc2
        · rw [if_neg hc2]
          exact iff_of_false (by simp) hc2
    · by_cases hts : l ≤ s
      · rw [if_pos hts]
        exact iff_of_true rfl hts
      · rw [if_neg hts]
        exact iff_of_false (by simp) hts
    · by_cases hts : l ≤ s
      · rw [if_pos hts]
        exact iff_of_false (by simp) (not_lt.mpr hts)
      · rw [if_neg hts]
        exact iff_of_true rfl (not_le.mp hts)
  · rcases st with _ | a
    · exact ⟨rfl, rfl⟩
    · exact ⟨rfl, rfl⟩
  · norm_num [processTrendRun, trendStep]
  · norm_num [processTrendRun, trendStep]

/-- C3, evaluating the code at the failing input: the current ingestion
stage maps every fetched bar onto an upserted row without any session
filter, so a bar at 16:40 IST (unix 40200, minute 1000 of the IST day,
outside 09:15-15:30) is among the rows it upserts. -/
theorem fetch_upserts_out_of_session_bar :
    istMinutesOfDay 40200 = 1000
  ∧ inSessionWindow 40200 = false
  ∧ transformCandles [⟨40200, 1, 2, 3, 4, 5⟩] = [⟨40200, 1, 2, 3, 4, 5⟩]
  ∧ (transformCandles [⟨40200, 1, 2, 3, 4, 5⟩]).map (fun r => r.timestamp) = [40200] :=
  ⟨by decide, by decide, rfl, rfl⟩

set_option maxRecDepth 8000 in
/-- C4, evaluating the code at the failing input: the current ingestion
stage never prunes, so a pair holding 210 candles that receives one new
bar ends the run with 211 stored candles; the current trend stage never
prunes either (51 rows after a run); only the indicator stage prunes its
series, to at most 50 signals. -/
theorem retention_not_enforced_by_fetch_and_trend :
    (candlesAfterFetchRun (List.range 210) [500]).length = 211
  ∧ 210 < (candlesAfterFetchRun (List.range 210) [500]).length
  ∧ (trendsAfterTrendRun (List.range 50) [500]).length = 51
  ∧ 50 < (trendsAfterTrendRun (List.range 50) [500]).length
  ∧ ∀ storedDesc : List ℕ, (signalsAfterPrune storedDesc).length ≤ 50 := by
  refine ⟨by decide, by decide, by decide, by decide, fun l => ?_⟩
  simp only [signalsAfterPrune, List.length_take]
  exact min_le_left _ _

/-- C5: the aggregation stage publishes a null percent change when the
prior-session close is missing, publishes null (after JSON serialization
of the non-finite quotient) when the prior-session close is zero and in
neither case fails; when the prior-session close is a nonzero value it
publishes (CMP - prev)/prev*100 rounded to 2 decimal places; for
CMP = 110 and prev = 100 the published value is 10. -/
theorem prcntChange_safe (cmp prev : ℚ) (hprev : prev ≠ 0) :
    computePrcntChange cmp none = none
  ∧ computePrcntChange cmp (some 0) = none
  ∧ computePrcntChange cmp (some prev) = some (round2 ((cmp - prev) / prev * 100))
  ∧ computePrcntChange 110 (some 100) = some 10 := by
  refine ⟨rfl, ?_, ?_, ?_⟩
  · simp [computePrcntChange, jsDivQ, jsMulQ, jsRound, jsonNumberField]
  · norm_num [computePrcntChange, jsDivQ, jsMulQ, jsRound, jsonNumberField, hprev, round2]
  · norm_num [computePrcntChange, jsDivQ, jsMulQ, jsRound, jsonNumberField, round2,
      Int.floor_eq_iff]

/-- Witness for C5 at CMP 110 and prior close 100. -/
theorem prcntChange_safe_witness :
    (100 : ℚ) ≠ 0
  ∧ computePrcntChange 110 (some 100) = some (round2 ((110 - 100) / 100 * 100)) :=
  ⟨by norm_num, (prcntChange_safe 110 100 (by norm_num)).2.2.1⟩

/-- C6 counterexample: with checkpoint 0, no stored signals, one new
candle at timestamp 5 and a FAILED signals upsert, the run records the
store error, persists nothing, and still advances the checkpoint to 5 —
the claim says a failed upsert leaves the checkpoint unadvanced. -/
theorem signals_checkpoint_advances_on_failed_upsert :
    (runSignalsPair 1 0 [] [5] false).upsertErrors = 1
  ∧ (runSignalsPair 1 0 [] [5] false).signalsAfter = []
  ∧ (runSignalsPair 1 0 [] [5] false).checkpointAfter = 5
  ∧ ¬ (runSignalsPair 1 0 [] [5] false).checkpointAfter = 0 := by decide

/-- C6 amended: a failed signals upsert is recorded in the error list
and leaves the signal store unchanged, but the checkpoint is still
advanced to the newest selected candle timestamp, exactly as on the
success path; only a thrown pair-level exception skips the update. -/
theorem signals_checkpoint_ignores_upsert_outcome
    (period cpBefore : ℕ) (storedSignals newCandles : List ℕ) (upsertOk : Bool) :
    (runSignalsPair period cpBefore storedSignals newCandles upsertOk).checkpointAfter
      = newCandles.getLastD cpBefore
  ∧ (runSignalsPair period cpBefore storedSignals newCandles false).checkpointAfter
      = (runSignalsPair period cpBefore storedSignals newCandles true).checkpointAfter
  ∧ (runSignalsPair period cpBefore storedSignals newCandles false).signalsAfter
      = storedSignals
  ∧ (runSignalsPair period cpBefore storedSignals newCandles false).upsertErrors = 1 :=
  ⟨rfl, rfl, by simp [runSignalsPair], rfl⟩

/-- C7 counterexample: with checkpoint 5, stored signals [3], one new
candle at timestamp 7 and a failed upsert, the checkpoint ends at 7
while the newest persisted signal is still 3 — the checkpoint does not
equal the newest timestamp actually persisted downstream. -/
theorem signals_checkpoint_exceeds_persisted :
    (runSignalsPair 1 5 [3] [7] false).checkpointAfter = 7
  ∧ (runSignalsPair 1 5 [3] [7] false).signalsAfter = [3]
  ∧ (runSignalsPair 1 5 [3] [7] false).checkpointAfter ∉
      (runSignalsPair 1 5 [3] [7] false).signalsAfter := by decide

/-- C7 amended: the indicator-stage checkpoint is monotonically
non-decreasing across a run, because only candles strictly newer than
the incoming checkpoint are selected; but it is set to the newest
SELECTED candle timestamp, whether or not the corresponding signals were
persisted. -/
theorem signals_checkpoint_monotone
    (period cpBefore : ℕ) (allCandles storedSignals : List ℕ) (upsertOk : Bool) :
    cpBefore ≤ (runSignalsPair period cpBefore storedSignals
        (selectNewCandles cpBefore allCandles) upsertOk).checkpointAfter
  ∧ (runSignalsPair period cpBefore storedSignals
        (selectNewCandles cpBefore allCandles) upsertOk).checkpointAfter
      = (selectNewCandles cpBefore allCandles).getLastD cpBefore := by
  refine ⟨?_, rfl⟩
  show cpBefore ≤ (selectNewCandles cpBefore allCandles).getLastD cpBefore
  rcases h : selectNewCandles cpBefore allCandles with _ | ⟨a, as⟩
  · simp
  · rw [List.getLastD_cons]
    have hmem : as.getLastD a ∈ selectNewCandles cpBefore allCandles := by
      rw [h]; exact List.getLastD_mem_cons as a
    exact le_of_lt (mem_selectNewCandles_lt hmem)

/-- C8 counterexample: the work selected by the trend stage depends on
the value of the pipeline-level checkpoint row: with a single candle at
timestamp 5, a pipeline checkpoint of 0 selects it while a pipeline
checkpoint of 10 selects nothing — so a stage does consume the pipeline
row as its timing source. -/
theorem trend_selection_gated_by_pipeline_checkpoint :
    candlesSinceTimestamp 0 [5] = [5]
  ∧ candlesSinceTimestamp 10 [5] = []
  ∧ candlesSinceTimestamp 0 [5] ≠ candlesSinceTimestamp 10 [5] := by decide

/-- C8 amended: the indicator stage keys its delta on its own
per-(stage, stock, timeframe) checkpoint, but the ingestion, trend and
aggregation stages all read the pipeline-level checkpoint row
(stage pipeline, stock 0, timeframe global) and select exactly the
candles strictly newer than it — their unit of work IS gated by that
row, which the orchestrator writes with the wall-clock run time. -/
theorem trend_selection_characterization (pipelineCp t : ℕ) (allCandles : List ℕ)
    (h : t ∈ candlesSinceTimestamp pipelineCp allCandles) :
    pipelineCp < t ∧ t ∈ allCandles :=
  mem_candlesSinceTimestamp h

/-- Witness for C8 amended: the candle at timestamp 5 selected under a
pipeline checkpoint of 0 is indeed newer than that checkpoint. -/
theorem trend_selection_characterization_witness :
    0 < 5 ∧ 5 ∈ ([5] : List ℕ) :=
  trend_selection_characterization 0 5 [5] (by decide)

/-- C9 counterexample: rebuilding the snapshot from initial table [1]
with one strategy row [2] passes through the observable states
[[1], [], [2]]: the state right after the unconditional DELETE is the
empty table, visible to any reader before the first insert lands — the
rebuild is a delete followed by incremental inserts, not an atomic
replace. -/
theorem snapshot_rebuild_shows_empty_table :
    snapshotRebuildStates [1] [2] = [[1], [], [2]]
  ∧ [] ∈ snapshotRebuildStates [1] [2]
  ∧ ([2] : List ℕ) ≠ [] := by decide

/-- C9 amended: the aggregation stage rebuilds the snapshot by deleting
every row and then inserting the new rows in batches of 100, so the
empty table is always one of the observable intermediate states; for at
most 100 rows the observable states are exactly initial, empty, final. -/
theorem snapshot_rebuild_is_delete_then_insert (initialTable strategyData : List ℕ)
    (hne : strategyData ≠ []) (hlen : strategyData.length ≤ 100) :
    [] ∈ snapshotRebuildStates initialTable strategyData
  ∧ snapshotRebuildStates initialTable strategyData = [initialTable, [], strategyData] := by
  have h1 : 1 ≤ strategyData.length := List.length_pos.mpr hne
  have hbc : (strategyData.length + 99) / 100 = 1 := by omega
  constructor
  · simp [snapshotRebuildStates]
  · simp only [snapshotRebuildStates, hbc]
    rw [show List.range 1 = [0] by decide]
    simp [List.take_of_length_le (by omega : strategyData.length ≤ (0 + 1) * 100)]

/-- Witness for C9 amended at initial table [7] and strategy data [2]. -/
theorem snapshot_rebuild_is_delete_then_insert_witness :
    ([2] : List ℕ) ≠ [] ∧ ([2] : List ℕ).length ≤ 100
  ∧ snapshotRebuildStates [7] [2] = [[7], [], [2]] :=
  ⟨by decide, by decide,
    (snapshot_rebuild_is_delete_then_insert [7] [2] (by decide) (by decide)).2⟩

end SignalHub
